import Mathlib

/-!
Shallow embedding of the MHT resource-resolution and HTML rehydration
engine of the Notes repository (`app.py` lines 355-447 and
`script/import.py` lines 15-96).

Modelling conventions:
* Machine bytes are `Nat` values below 256, byte strings are `List Nat`.
* The output of Python's `email.message_from_bytes(..).walk()` is modelled
  as a `List MimePart`: a flat, ordered sequence of leaf parts, each with
  its content type, optional `Content-ID` and `Content-Location` headers
  and its transfer-decoded payload.  Both implementations run the same
  library call on the same bytes, so the part list is the common input.
* Charset decoding with `errors="replace"` is modelled byte-by-byte
  (`decodeBytes`); the only property used by the theorems is that the
  decoded text is empty exactly when the payload is empty.
* `urllib.parse.unquote` is modelled as percent-decoding of `%XX` hex
  pairs (faithful on ASCII results, which is all the theorems touch).
* BeautifulSoup documents are modelled by the mutual inductives
  `Html` / `HtmlList` (a document is a forest of top-level nodes);
  `str(...)` serialization is the function `serializeList`, while parsing
  (`BeautifulSoup(text, "html.parser")`) is kept as an explicit function
  parameter `parse : String → HtmlList` of the pipelines, since it is
  library code shared verbatim by both implementations.
* Python `dict` is modelled as an association list with insert-overwrite
  (`dictInsert`), preserving insertion order and last-write-wins.
-/

namespace Notes

/-- Python whitespace characters stripped by `str.strip()`. -/
def isPyWhitespace (c : Char) : Bool :=
  c = ' ' || c = '\t' || c = '\n' || c = '\r' || c = '\x0b' || c = '\x0c'

/-- Python `str.strip()`: remove leading and trailing whitespace. -/
def pyStrip (s : String) : String :=
  String.mk (((s.data.dropWhile isPyWhitespace).reverse.dropWhile isPyWhitespace).reverse)

/-- Python `str.strip("<>")`: remove all leading and trailing `<` / `>`. -/
def isAngle (c : Char) : Bool := c = '<' || c = '>'

/-- `cid.strip("<>")` from the source. -/
def stripAngle (s : String) : String :=
  String.mk (((s.data.dropWhile isAngle).reverse.dropWhile isAngle).reverse)

/-- Hex digit value, as used by percent-decoding. -/
def hexVal (c : Char) : Option Nat :=
  if '0' ≤ c ∧ c ≤ '9' then some (c.toNat - '0'.toNat)
  else if 'a' ≤ c ∧ c ≤ 'f' then some (c.toNat - 'a'.toNat + 10)
  else if 'A' ≤ c ∧ c ≤ 'F' then some (c.toNat - 'A'.toNat + 10)
  else none

/-- Model of `urllib.parse.unquote`: decode `%XX` hex pairs, leave
everything else alone (faithful for ASCII results). -/
def unquoteList : List Char → List Char
  | '%' :: a :: b :: rest =>
    match hexVal a, hexVal b with
    | some x, some y => Char.ofNat (16 * x + y) :: unquoteList rest
    | _, _ => '%' :: unquoteList (a :: b :: rest)
  | c :: rest => c :: unquoteList rest
  | [] => []

/-- `urllib.parse.unquote` on strings. -/
def unquote (s : String) : String := String.mk (unquoteList s.data)

/-- ASCII lowercasing of one character, modelling `str.lower()` on the
ASCII prefixes the code compares. -/
def lowerAscii (c : Char) : Char :=
  if 'A' ≤ c ∧ c ≤ 'Z' then Char.ofNat (c.toNat + 32) else c

/-- The `norm` helper of `parse_mht_to_html` / `load_mht`:
percent-decode, strip whitespace, turn backslashes into slashes, and
canonicalise a case-insensitive `cid:` scheme to lowercase. -/
def norm (val : String) : String :=
  let v1 := pyStrip (unquote val)
  let v2 := String.mk (v1.data.map (fun c => if c = '\\' then '/' else c))
  if (v2.data.take 4).map lowerAscii = "cid:".data then
    "cid:" ++ String.mk (v2.data.drop 4)
  else v2

/-- `os.path.basename` on POSIX: everything after the last `/`. -/
def basename (s : String) : String :=
  String.mk ((s.data.reverse.takeWhile (fun c => c ≠ '/')).reverse)

/-- The base64 alphabet, by index. -/
def b64char (n : Nat) : Char :=
  "ABCDEFGHIJKLMNOPQRSTUVWXYZabcdefghijklmnopqrstuvwxyz0123456789+/".data.getD n '='

/-- `base64.b64encode` over a byte list, producing the padded text. -/
def b64encodeList : List Nat → List Char
  | b1 :: b2 :: b3 :: rest =>
    let n := (b1 % 256) * 65536 + (b2 % 256) * 256 + b3 % 256
    b64char (n / 262144) :: b64char (n / 4096 % 64) :: b64char (n / 64 % 64) ::
      b64char (n % 64) :: b64encodeList rest
  | [b1, b2] =>
    let n := (b1 % 256) * 65536 + (b2 % 256) * 256
    [b64char (n / 262144), b64char (n / 4096 % 64), b64char (n / 64 % 64), '=']
  | [b1] =>
    let n := (b1 % 256) * 65536
    [b64char (n / 262144), b64char (n / 4096 % 64), '=', '=']
  | [] => []

/-- `base64.b64encode(content).decode()`. -/
def b64encode (bs : List Nat) : String := String.mk (b64encodeList bs)

/-- `f"data:{ctype};base64,{base64.b64encode(content).decode()}"`. -/
def dataUri (ctype : String) (payload : List Nat) : String :=
  "data:" ++ ctype ++ ";base64," ++ b64encode payload

/-- One leaf part of the decoded MIME multipart walk. -/
structure MimePart where
  contentType : String
  contentId : Option String := none
  contentLocation : Option String := none
  payload : List Nat := []
  deriving DecidableEq, Repr

/-- Python truthiness of an optional header value: present and non-empty
(`if cid:` treats both `None` and `""` as false). -/
def strTruthy : Option String → Bool
  | some s => !s.isEmpty
  | none => false

/-- Model of `payload.decode(charset, errors="replace")`: one character
per byte; empty exactly when the payload is empty. -/
def decodeBytes (bs : List Nat) : String := String.mk (bs.map Char.ofNat)

/-- The `for part in msg.walk()` loop: designate the first `text/html`
part's decoded text, and collect every other part that carries a truthy
`Content-ID` or `Content-Location` as a resource candidate. -/
def scanAux : Option String → List MimePart → List MimePart → Option String × List MimePart
  | html?, acc, [] => (html?, acc.reverse)
  | html?, acc, p :: ps =>
    if p.contentType = "text/html" ∧ html? = none then
      scanAux (some (decodeBytes p.payload)) acc ps
    else if strTruthy p.contentId || strTruthy p.contentLocation then
      scanAux html? (p :: acc) ps
    else
      scanAux html? acc ps

/-- The walk loop of `parse_mht_to_html` / `load_mht`, started empty. -/
def scanParts (parts : List MimePart) : Option String × List MimePart :=
  scanAux none [] parts

/-- First part of the walk whose content type is `text/html`. -/
def firstHtml : List MimePart → Option MimePart
  | [] => none
  | p :: ps => if p.contentType = "text/html" then some p else firstHtml ps

/-- Python `dict` as an ordered association list. -/
def Dict : Type := List (String × String)

/-- `d[k] = v`: overwrite in place if the key exists, else append. -/
def dictInsert : Dict → String → String → Dict
  | [], k, v => [(k, v)]
  | (k', v') :: rest, k, v =>
    if k' = k then (k, v) :: rest else (k', v') :: dictInsert rest k v

/-- `d.get(k)` / `k in d`. -/
def dictLookup : Dict → String → Option String
  | [], _ => none
  | (k', v') :: rest, k => if k' = k then some v' else dictLookup rest k

/-- Register one data URI under a list of keys, in order. -/
def insertKeys (d : Dict) (ks : List String) (v : String) : Dict :=
  ks.foldl (fun d k => dictInsert d k v) d

/-- The four key variants registered for a truthy `Content-ID`:
`cid:{cidClean}`, `CID:{cidClean}`, bare `cidClean`, and
`norm(cidClean)` (angle brackets stripped first). -/
def cidKeys (cid : String) : List String :=
  let c := stripAngle cid
  ["cid:" ++ c, "CID:" ++ c, c, norm c]

/-- The key variants registered for a truthy `Content-Location`:
the cleaned location, its `cid:`/`CID:` forms and its normalisation,
plus the same four shapes for the non-empty basename of the
normalised location. -/
def locKeys (loc : String) : List String :=
  let lc := stripAngle (pyStrip loc)
  let n := norm lc
  let b := basename n
  [lc, "cid:" ++ lc, "CID:" ++ lc, n] ++
    (if b = "" then [] else [b, "cid:" ++ b, "CID:" ++ b, norm b])

/-- The body of the `for ctype, content, cid, loc in resources` loop:
register the part's data URI under its CID keys, then its location keys. -/
def registerResource (d : Dict) (r : MimePart) : Dict :=
  let dataUrl := dataUri r.contentType r.payload
  let d1 := if strTruthy r.contentId then
      insertKeys d (cidKeys (r.contentId.getD "")) dataUrl
    else d
  if strTruthy r.contentLocation then
    insertKeys d1 (locKeys (r.contentLocation.getD "")) dataUrl
  else d1

/-- All keys a resource candidate registers, in registration order. -/
def resourceKeys (r : MimePart) : List String :=
  (if strTruthy r.contentId then cidKeys (r.contentId.getD "") else []) ++
    (if strTruthy r.contentLocation then locKeys (r.contentLocation.getD "") else [])

/-- The `src_map` built from the resource candidates, in part order. -/
def buildSrcMap (rs : List MimePart) : Dict :=
  rs.foldl registerResource []

/-- The latest part in the list that registers the given key. -/
def lastOwner (k : String) : List MimePart → Option MimePart
  | [] => none
  | r :: rs =>
    match lastOwner k rs with
    | some r' => some r'
    | none => if k ∈ resourceKeys r then some r else none

mutual
/-- One BeautifulSoup node: a tag with its attributes and children, or a
navigable string. -/
inductive Html where
  | elem : String → List (String × String) → HtmlList → Html
  | text : String → Html
  deriving DecidableEq, Repr

/-- A sequence of sibling nodes; a parsed document is such a forest. -/
inductive HtmlList where
  | nil : HtmlList
  | cons : Html → HtmlList → HtmlList
  deriving DecidableEq, Repr
end

/-- `tag.get(name)`: first value bound to an attribute name. -/
def getAttr (attrs : List (String × String)) (name : String) : Option String :=
  match attrs with
  | [] => none
  | (k, v) :: rest => if k = name then some v else getAttr rest name

/-- Whether an attribute name is present (`find_all(src=True)` filter). -/
def hasAttr (attrs : List (String × String)) (name : String) : Bool :=
  attrs.any (fun kv => kv.1 = name)

/-- `tag[name] = v`: update the value bound to an attribute name. -/
def setAttr : List (String × String) → String → String → List (String × String)
  | [], _, _ => []
  | (k, w) :: rest, name, v =>
    if k = name then (k, v) :: setAttr rest name v
    else (k, w) :: setAttr rest name v

/-- Minimal HTML text escaping used by serialization. -/
def escapeText (s : String) : String :=
  String.mk (s.data.flatMap (fun c =>
    if c = '&' then "&amp;".data
    else if c = '<' then "&lt;".data
    else if c = '>' then "&gt;".data
    else [c]))

/-- Attribute-value escaping used by serialization. -/
def escapeAttr (s : String) : String :=
  String.mk (s.data.flatMap (fun c =>
    if c = '&' then "&amp;".data
    else if c = '"' then "&quot;".data
    else [c]))

/-- Render one attribute as ` name="value"`. -/
def attrText (kv : String × String) : String :=
  " " ++ kv.1 ++ "=\x22" ++ escapeAttr kv.2 ++ "\x22"

mutual
/-- `str(tag)`: serialize one node back to HTML text. -/
def serializeNode : Html → String
  | .text s => escapeText s
  | .elem name attrs children =>
    "<" ++ name ++ String.join (attrs.map attrText) ++ ">" ++
      serializeList children ++ "</" ++ name ++ ">"

/-- `str(soup)`: serialize a forest (the whole document). -/
def serializeList : HtmlList → String
  | .nil => ""
  | .cons c cs => serializeNode c ++ serializeList cs
end

mutual
/-- `soup.find(name)` restricted to one subtree: first tag with the given
name in document (pre)order, the root included. -/
def findFirst (name : String) : Html → Option Html
  | .text _ => none
  | .elem t attrs cs =>
    if t = name then some (.elem t attrs cs) else findFirstList name cs

/-- `soup.find(name)` over a forest. -/
def findFirstList (name : String) : HtmlList → Option Html
  | .nil => none
  | .cons c cs =>
    match findFirst name c with
    | some r => some r
    | none => findFirstList name cs
end

/-- BeautifulSoup `.string`: the node's text if it is a navigable string;
for a tag, the `.string` of its only child, and `None` when the tag does
not have exactly one child. -/
def tagString : Html → Option String
  | .text s => some s
  | .elem _ _ (.cons c .nil) => tagString c
  | .elem _ _ _ => none

/-- `html_to_body` (`app.py` 355-360, `script/import.py` 15-20): parse the
text, take the trimmed `<title>` string when truthy else the fallback, and
serialize `soup.body or soup` as the body. -/
def html_to_body (parse : String → HtmlList) (text : String)
    (fallback_title : String) : String × String :=
  let soup := parse text
  let title :=
    match (findFirstList "title" soup).bind tagString with
    | some s => if s ≠ "" then pyStrip s else fallback_title
    | none => fallback_title
  let body :=
    match findFirstList "body" soup with
    | some b => serializeNode b
    | none => serializeList soup
  (title, body)

/-- The per-value resolution of the rehydration loop: normalise, look up,
retry on the basename, and fall back to the original value. -/
def resolveSrc (m : Dict) (v : String) : String :=
  let lookup := norm v
  match dictLookup m lookup with
  | some u => u
  | none =>
    match dictLookup m (basename lookup) with
    | some u => u
    | none => v

mutual
/-- The `for tag in soup.find_all(src=True)` rewrite loop on one node:
every element carrying a `src` attribute has its value resolved against
the map; everything else is left untouched. -/
def rehydrateNode (m : Dict) : Html → Html
  | .text s => .text s
  | .elem t attrs cs =>
    let attrs' :=
      if hasAttr attrs "src" then
        setAttr attrs "src" (resolveSrc m ((getAttr attrs "src").getD ""))
      else attrs
    .elem t attrs' (rehydrate m cs)

/-- The rewrite loop over a document forest. -/
def rehydrate (m : Dict) : HtmlList → HtmlList
  | .nil => .nil
  | .cons c cs => .cons (rehydrateNode m c) (rehydrate m cs)
end

mutual
/-- `strip_data_uri_images` body on one node: blank the `src` of every
`img` whose `src` starts with `data:`; report whether anything changed. -/
def stripNode : Html → Html × Bool
  | .text s => (.text s, false)
  | .elem t attrs cs =>
    let inner := stripForest cs
    if t = "img" ∧ ((getAttr attrs "src").getD "").startsWith "data:" then
      (.elem t (setAttr attrs "src" "") inner.1, true)
    else
      (.elem t attrs inner.1, inner.2)

/-- `strip_data_uri_images` body over a forest. -/
def stripForest : HtmlList → HtmlList × Bool
  | .nil => (.nil, false)
  | .cons c cs =>
    let h := stripNode c
    let t := stripForest cs
    (.cons h.1 t.1, h.2 || t.2)
end

/-- `strip_data_uri_images` (`app.py` 438-447) at tree level: return the
rewritten document when a change occurred, else the input unchanged. -/
def strip_data_uri_images (doc : HtmlList) : HtmlList :=
  let r := stripForest doc
  if r.2 then r.1 else doc

/-- `filename.rsplit(".", 1)[0]`: everything before the last dot, or the
whole string when there is none. -/
def rsplitStem (s : String) : String :=
  if s.data.contains '.' then
    String.mk (((s.data.reverse.dropWhile (fun c => c ≠ '.')).drop 1).reverse)
  else s

/-- `pathlib.PurePath(name).stem`: drop the suffix only when the last dot
is neither the first nor the last character of the name. -/
def pathStem (s : String) : String :=
  let l := s.data
  if l.contains '.' then
    let k := (l.reverse.takeWhile (fun c => c ≠ '.')).length
    let i := l.length - 1 - k
    if 0 < i ∧ i < l.length - 1 then String.mk (l.take i) else s
  else s

/-- `parse_mht_to_html` (`app.py` 363-435) over a decoded part list, with
BeautifulSoup parsing passed in as `parse`. -/
def parse_mht_to_html (parse : String → HtmlList) (parts : List MimePart)
    (filename : String) : Except String (String × String) :=
  let scanned := scanParts parts
  if strTruthy scanned.1 = false then
    Except.error "Логин не может быть пустым"
  else
    let srcMap := buildSrcMap scanned.2
    let soup := rehydrate srcMap (parse (scanned.1.getD ""))
    Except.ok (html_to_body parse (serializeList soup) (rsplitStem filename))

/-- `load_mht` (`script/import.py` 23-96) over the same decoded part list
(the file's bytes), with the path's final component as `path`. -/
def load_mht (parse : String → HtmlList) (parts : List MimePart)
    (path : String) : Except String (String × String) :=
  let scanned := scanParts parts
  if strTruthy scanned.1 = false then
    Except.error ("No HTML part found in " ++ path)
  else
    let srcMap := buildSrcMap scanned.2
    let soup := rehydrate srcMap (parse (scanned.1.getD ""))
    Except.ok (html_to_body parse (serializeList soup) (pathStem path))

mutual
/-- Forget every `src` attribute value in a node (blank it), keeping the
rest of the node intact; used to state the rehydration frame property. -/
def eraseSrcNode : Html → Html
  | .text s => .text s
  | .elem t attrs cs => .elem t (setAttr attrs "src" "") (eraseSrcList cs)

/-- Forget every `src` attribute value in a forest. -/
def eraseSrcList : HtmlList → HtmlList
  | .nil => .nil
  | .cons c cs => .cons (eraseSrcNode c) (eraseSrcList cs)
end

/-! Concrete fixtures used by the claim witnesses and counterexamples. -/

/-- A `text/html` part whose decoded payload is the empty string. -/
def emptyHtmlPart : MimePart := { contentType := "text/html" }

/-- A PNG resource part addressed by Content-ID, for concrete witnesses. -/
def pngPart : MimePart :=
  { contentType := "image/png", contentId := some "<img001@ABC>", payload := [137, 80] }

/-- A resource whose Content-ID contains a backslash, for C4. -/
def slashCidPart : MimePart :=
  { contentType := "image/png", contentId := some "<a\\b>", payload := [1] }

/-- A second resource colliding with `pngPart` on key `cid:img001@ABC`. -/
def gifPart : MimePart :=
  { contentType := "image/gif", contentId := some "<img001@ABC>", payload := [2] }

/-- A JPEG resource addressed only by Content-Location, for C7. -/
def jpgPart : MimePart :=
  { contentType := "image/jpeg", contentLocation := some "images/pic.JPG",
    payload := [255] }

/-- A document with a padded title and a body, for the C6 witness. -/
def titleDoc : HtmlList :=
  .cons (.elem "html" []
    (.cons (.elem "title" [] (.cons (.text "  Hi  ") .nil))
      (.cons (.elem "body" [] (.cons (.text "ok") .nil)) .nil))) .nil

/-- A minimal parse function used for the pipeline-equivalence claims. -/
def tinyParse : String → HtmlList :=
  fun s => .cons (.elem "body" [] (.cons (.text s) .nil)) .nil

/-- A one-byte `text/html` part. -/
def tinyHtmlPart : MimePart := { contentType := "text/html", payload := [104] }

/-! Dictionary and resource-map lemmas. -/

theorem dictLookup_dictInsert (d : Dict) (k v k' : String) :
    dictLookup (dictInsert d k v) k' = if k = k' then some v else dictLookup d k' := by
  induction d with
  | nil => simp [dictInsert, dictLookup]
  | cons kv rest ih =>
    obtain ⟨a, b⟩ := kv
    by_cases hak : a = k
    · subst hak
      by_cases hk' : a = k' <;> simp [dictInsert, dictLookup, hk']
    · by_cases hk' : a = k'
      · subst hk'
        simp [dictInsert, dictLookup, hak]
        rw [if_neg (fun h => hak h.symm)]
      · simp [dictInsert, dictLookup, hak, hk', ih]

theorem dictLookup_insertKeys (d : Dict) (ks : List String) (v k : String) :
    dictLookup (insertKeys d ks v) k = if k ∈ ks then some v else dictLookup d k := by
  induction ks generalizing d with
  | nil => simp [insertKeys]
  | cons k0 ks ih =>
    have step : insertKeys d (k0 :: ks) v = insertKeys (dictInsert d k0 v) ks v := rfl
    rw [step, ih, dictLookup_dictInsert]
    by_cases h1 : k ∈ ks <;> by_cases h2 : k0 = k <;>
      simp [h1, h2, List.mem_cons]
    · rw [if_neg (fun h => h2 h.symm)]

theorem insertKeys_append (d : Dict) (ks1 ks2 : List String) (v : String) :
    insertKeys d (ks1 ++ ks2) v = insertKeys (insertKeys d ks1 v) ks2 v := by
  simp [insertKeys, List.foldl_append]

theorem registerResource_eq (d : Dict) (r : MimePart) :
    registerResource d r =
      insertKeys d (resourceKeys r) (dataUri r.contentType r.payload) := by
  unfold registerResource resourceKeys
  by_cases h1 : strTruthy r.contentId <;> by_cases h2 : strTruthy r.contentLocation <;>
    simp [h1, h2, insertKeys_append, insertKeys]

theorem dictLookup_foldl (rs : List MimePart) (d : Dict) (k : String) :
    dictLookup (rs.foldl registerResource d) k =
      match lastOwner k rs with
      | some r => some (dataUri r.contentType r.payload)
      | none => dictLookup d k := by
  induction rs generalizing d with
  | nil => simp [lastOwner]
  | cons r rs ih =>
    have step : (r :: rs).foldl registerResource d = rs.foldl registerResource (registerResource d r) := rfl
    rw [step, ih]
    cases h : lastOwner k rs with
    | some r' => simp [lastOwner, h]
    | none =>
      simp only [lastOwner, h]
      rw [registerResource_eq, dictLookup_insertKeys]
      by_cases hk : k ∈ resourceKeys r <;> simp [hk]

theorem buildSrcMap_lookup (rs : List MimePart) (k : String) :
    dictLookup (buildSrcMap rs) k =
      (lastOwner k rs).map (fun r => dataUri r.contentType r.payload) := by
  rw [buildSrcMap, dictLookup_foldl]
  cases h : lastOwner k rs <;> simp [dictLookup]

theorem lastOwner_mem {k : String} {l : List MimePart} {r : MimePart}
    (h : lastOwner k l = some r) : r ∈ l ∧ k ∈ resourceKeys r := by
  induction l with
  | nil => simp [lastOwner] at h
  | cons x l ih =>
    simp only [lastOwner] at h
    cases hx : lastOwner k l with
    | some r' =>
      rw [hx] at h
      cases h
      have := ih hx
      exact ⟨List.mem_cons_of_mem _ this.1, this.2⟩
    | none =>
      rw [hx] at h
      by_cases hk : k ∈ resourceKeys x
      · simp [hk] at h
        subst h
        exact ⟨List.mem_cons_self _ _, hk⟩
      · simp [hk] at h

theorem lastOwner_isSome {k : String} {l : List MimePart} {r : MimePart}
    (hr : r ∈ l) (hk : k ∈ resourceKeys r) : lastOwner k l ≠ none := by
  induction l with
  | nil => simp at hr
  | cons x l ih =>
    simp only [lastOwner]
    cases hx : lastOwner k l with
    | some r' => simp
    | none =>
      rcases List.mem_cons.mp hr with h | h
      · subst h
        simp [hk]
      · exact absurd hx (ih h)

theorem lastOwner_unique {k : String} {l : List MimePart} {r : MimePart}
    (hr : r ∈ l) (hk : k ∈ resourceKeys r)
    (huniq : ∀ r' ∈ l, k ∈ resourceKeys r' → r' = r) : lastOwner k l = some r := by
  cases h : lastOwner k l with
  | none => exact absurd h (lastOwner_isSome hr hk)
  | some r' =>
    have hm := lastOwner_mem h
    rw [huniq r' hm.1 hm.2]

theorem lastOwner_of_forall_not {k : String} {ys : List MimePart}
    (h : ∀ r' ∈ ys, k ∉ resourceKeys r') : lastOwner k ys = none := by
  induction ys with
  | nil => rfl
  | cons x ys ih =>
    have hx := h x (List.mem_cons_self _ _)
    have := ih (fun r' hr' => h r' (List.mem_cons_of_mem _ hr'))
    simp [lastOwner, this, hx]

theorem lastOwner_last {k : String} (xs ys : List MimePart) (r : MimePart)
    (hk : k ∈ resourceKeys r) (hys : ∀ r' ∈ ys, k ∉ resourceKeys r') :
    lastOwner k (xs ++ r :: ys) = some r := by
  induction xs with
  | nil => simp [lastOwner, lastOwner_of_forall_not hys, hk]
  | cons x xs ih => simp [lastOwner, ih]

/-! Attribute and tree lemmas. -/

theorem setAttr_setAttr (attrs : List (String × String)) (n v w : String) :
    setAttr (setAttr attrs n v) n w = setAttr attrs n w := by
  induction attrs with
  | nil => rfl
  | cons kv rest ih =>
    obtain ⟨a, b⟩ := kv
    by_cases h : a = n <;> simp [setAttr, h, ih]

theorem getAttr_setAttr (attrs : List (String × String)) (n v : String) :
    getAttr (setAttr attrs n v) n = (getAttr attrs n).map (fun _ => v) := by
  induction attrs with
  | nil => rfl
  | cons kv rest ih =>
    obtain ⟨a, b⟩ := kv
    by_cases h : a = n <;> simp [setAttr, getAttr, h, ih]

mutual
theorem eraseSrc_rehydrateNode (m : Dict) (t : Html) :
    eraseSrcNode (rehydrateNode m t) = eraseSrcNode t := by
  cases t with
  | text s => rfl
  | elem tg attrs cs =>
    by_cases h : hasAttr attrs "src" = true <;>
      simp [rehydrateNode, eraseSrcNode, h, setAttr_setAttr,
        eraseSrc_rehydrateList m cs]

theorem eraseSrc_rehydrateList (m : Dict) (ts : HtmlList) :
    eraseSrcList (rehydrate m ts) = eraseSrcList ts := by
  cases ts with
  | nil => rfl
  | cons c cs =>
    simp [rehydrate, eraseSrcList, eraseSrc_rehydrateNode m c,
      eraseSrc_rehydrateList m cs]
end

set_option maxHeartbeats 2000000 in
mutual
theorem stripNode_fixed (t : Html) : stripNode (stripNode t).1 = ((stripNode t).1, false) := by
  cases t with
  | text s => rfl
  | elem tg attrs cs =>
    by_cases h : tg = "img" ∧ ((getAttr attrs "src").getD "").startsWith "data:" = true
    · obtain ⟨htg, hsrc⟩ := h
      subst htg
      have h3 : ((getAttr (setAttr attrs "src" "") "src").getD "").startsWith "data:"
          = false := by
        rw [getAttr_setAttr]
        cases getAttr attrs "src" <;> rfl
      simp only [stripNode, hsrc, and_self, if_true]
      simp only [stripNode, h3, Bool.false_eq_true, and_false, if_false]
      rw [stripForest_fixed cs]
    · simp only [stripNode]
      rw [if_neg h]
      simp only [stripNode]
      rw [if_neg h]
      rw [stripForest_fixed cs]

theorem stripForest_fixed (ts : HtmlList) :
    stripForest (stripForest ts).1 = ((stripForest ts).1, false) := by
  cases ts with
  | nil => rfl
  | cons c cs =>
    simp only [stripForest]
    rw [stripNode_fixed c, stripForest_fixed cs]
    simp
end

/-! Walk-loop lemmas. -/

theorem scanAux_some_fst (h : String) (acc ps : List MimePart) :
    (scanAux (some h) acc ps).1 = some h := by
  induction ps generalizing acc with
  | nil => rfl
  | cons p ps ih =>
    simp only [scanAux]
    rw [if_neg (fun hc => Option.noConfusion hc.2)]
    split
    · exact ih _
    · exact ih _

theorem scanAux_none_fst (acc ps : List MimePart) :
    (scanAux none acc ps).1 =
      (firstHtml ps).map (fun p => decodeBytes p.payload) := by
  induction ps generalizing acc with
  | nil => rfl
  | cons p ps ih =>
    simp only [scanAux, firstHtml]
    by_cases hp : p.contentType = "text/html"
    · rw [if_pos ⟨hp, trivial⟩, scanAux_some_fst, if_pos hp]
      rfl
    · rw [if_neg (fun hc => hp hc.1), if_neg hp]
      split
      · exact ih _
      · exact ih _

theorem scanParts_fst (ps : List MimePart) :
    (scanParts ps).1 = (firstHtml ps).map (fun p => decodeBytes p.payload) :=
  scanAux_none_fst [] ps

theorem decodeBytes_eq_empty (bs : List Nat) : decodeBytes bs = "" ↔ bs = [] := by
  have e : ("" : String) = String.mk [] := rfl
  rw [decodeBytes, e]
  constructor
  · intro h
    injection h with h'
    exact List.map_eq_nil_iff.mp h'
  · intro h
    subst h
    rfl

theorem strTruthy_scanParts (parts : List MimePart) :
    strTruthy (scanParts parts).1 = false ↔
      ∀ p ∈ firstHtml parts, p.payload = [] := by
  rw [scanParts_fst]
  cases h : firstHtml parts with
  | none => simp [strTruthy]
  | some p =>
    have e1 : Option.map (fun p : MimePart => decodeBytes p.payload) (some p)
        = some (decodeBytes p.payload) := rfl
    rw [e1]
    simp only [strTruthy, Option.mem_def, Option.some.injEq]
    rw [Bool.not_eq_false', String.isEmpty_iff, decodeBytes_eq_empty]
    constructor
    · intro hemp q hq
      exact hq ▸ hemp
    · intro hall
      exact hall p rfl

/-! Claim theorems. -/

/-- C1 counterexample: an archive containing a `text/html` part (with empty
payload) still triggers the no-HTML error in `parse_mht_to_html`, and the
error value is a fixed message independent of the filename (so it cannot
carry the filename). -/
theorem C1_counterexample :
    emptyHtmlPart ∈ [emptyHtmlPart] ∧ emptyHtmlPart.contentType = "text/html" ∧
      parse_mht_to_html (fun _ => HtmlList.nil) [emptyHtmlPart] "x.mht"
        = Except.error "Логин не может быть пустым" ∧
      parse_mht_to_html (fun _ => HtmlList.nil) [emptyHtmlPart] "x.mht"
        = parse_mht_to_html (fun _ => HtmlList.nil) [emptyHtmlPart] "y.mht" :=
  ⟨List.mem_singleton.mpr rfl, rfl, rfl, rfl⟩

/-- C1 (amended): both pipelines raise the no-HTML error exactly when the
walk finds no `text/html` part or the first such part decodes to the empty
string (Python `if not html_part` truthiness); `load_mht`'s message embeds
the path, while `parse_mht_to_html` raises a fixed message without the
filename. -/
theorem C1_no_html_error_iff (parse : String → HtmlList) (parts : List MimePart)
    (filename : String) :
    (parse_mht_to_html parse parts filename
        = Except.error "Логин не может быть пустым"
      ↔ ∀ p ∈ firstHtml parts, p.payload = []) ∧
    (load_mht parse parts filename
        = Except.error ("No HTML part found in " ++ filename)
      ↔ ∀ p ∈ firstHtml parts, p.payload = []) := by
  rw [← strTruthy_scanParts]
  unfold parse_mht_to_html load_mht
  by_cases h : strTruthy (scanParts parts).1 = false <;> simp [h]

/-- C1 witness: the empty archive triggers the app error. -/
theorem C1_no_html_error_iff_witness :
    parse_mht_to_html (fun _ => HtmlList.nil) [] "a.mht"
      = Except.error "Логин не может быть пустым" :=
  (C1_no_html_error_iff (fun _ => HtmlList.nil) [] "a.mht").1.mpr
    (by simp [firstHtml])

/-- C2: when a resource carries `Content-ID: <img001@ABC>` and is the only
part registering the key `cid:img001@ABC`, rehydration rewrites an
`<img src="cid:img001@ABC">` element's src to
`data:<contentType>;base64,<base64(payload)>`. -/
theorem C2_cid_resolution (l : List MimePart) (r : MimePart)
    (hr : r ∈ l) (hcid : r.contentId = some "<img001@ABC>")
    (huniq : ∀ r' ∈ l, "cid:img001@ABC" ∈ resourceKeys r' → r' = r) :
    rehydrateNode (buildSrcMap l)
        (Html.elem "img" [("src", "cid:img001@ABC")] HtmlList.nil)
      = Html.elem "img"
          [("src", "data:" ++ r.contentType ++ ";base64," ++ b64encode r.payload)]
          HtmlList.nil := by
  have hk : "cid:img001@ABC" ∈ resourceKeys r := by
    unfold resourceKeys
    rw [hcid]
    apply List.mem_append_left
    decide
  have hlook : dictLookup (buildSrcMap l) "cid:img001@ABC"
      = some (dataUri r.contentType r.payload) := by
    rw [buildSrcMap_lookup, lastOwner_unique hr hk huniq]
    rfl
  have hres : resolveSrc (buildSrcMap l) "cid:img001@ABC"
      = dataUri r.contentType r.payload := by
    unfold resolveSrc
    rw [show norm "cid:img001@ABC" = "cid:img001@ABC" from by decide]
    simp only [hlook]
  have hstep : rehydrateNode (buildSrcMap l)
        (Html.elem "img" [("src", "cid:img001@ABC")] HtmlList.nil)
      = Html.elem "img"
          [("src", resolveSrc (buildSrcMap l) "cid:img001@ABC")] HtmlList.nil := rfl
  rw [hstep, hres]
  rfl

/-- C2 witness at a concrete one-resource archive. -/
theorem C2_cid_resolution_witness :
    rehydrateNode (buildSrcMap [pngPart])
        (Html.elem "img" [("src", "cid:img001@ABC")] HtmlList.nil)
      = Html.elem "img" [("src", "data:image/png;base64,iVA=")] HtmlList.nil := by
  have h := C2_cid_resolution [pngPart] pngPart (by decide) rfl (by decide)
  rw [h]
  rfl

/-- C3: when the normalised src value misses the map and its basename also
misses, the rehydrator leaves the value unchanged (and total: no error). -/
theorem C3_miss_passthrough (m : Dict) (v tg : String)
    (h1 : dictLookup m (norm v) = none)
    (h2 : dictLookup m (basename (norm v)) = none) :
    resolveSrc m v = v ∧
      rehydrateNode m (Html.elem tg [("src", v)] HtmlList.nil)
        = Html.elem tg [("src", v)] HtmlList.nil := by
  have hres : resolveSrc m v = v := by
    unfold resolveSrc
    simp only [h1, h2]
  refine ⟨hres, ?_⟩
  have hstep : rehydrateNode m (Html.elem tg [("src", v)] HtmlList.nil)
      = Html.elem tg [("src", resolveSrc m v)] HtmlList.nil := rfl
  rw [hstep, hres]

/-- C3 witness: an absolute URL with no matching resource passes through. -/
theorem C3_miss_passthrough_witness :
    resolveSrc [("k", "u")] "http://example.com/x.png" = "http://example.com/x.png" :=
  (C3_miss_passthrough [("k", "u")] "http://example.com/x.png" "img"
    (by decide) (by decide)).1

/-- C4 counterexample: the claimed fourth variant `norm("cid:" + cidClean)`
is not registered (lookup misses), while the actually registered fourth
variant `norm(cidClean)` is present. -/
theorem C4_counterexample :
    dictLookup (buildSrcMap [slashCidPart]) (norm ("cid:" ++ stripAngle "<a\\b>"))
        = none ∧
      dictLookup (buildSrcMap [slashCidPart]) (norm (stripAngle "<a\\b>"))
        = some (dataUri "image/png" [1]) := by
  decide

/-- C4 (amended): a candidate carrying only a (truthy) Content-ID registers
its data URI under exactly the four variants `cid:{cidClean}`,
`CID:{cidClean}`, bare `{cidClean}`, and `norm(cidClean)`. -/
theorem C4_cid_key_variants (r : MimePart) (c : String)
    (hc : r.contentId = some c) (hne : c ≠ "") (hloc : r.contentLocation = none)
    (k : String) :
    dictLookup (buildSrcMap [r]) k =
      if k = "cid:" ++ stripAngle c ∨ k = "CID:" ++ stripAngle c ∨
          k = stripAngle c ∨ k = norm (stripAngle c)
      then some (dataUri r.contentType r.payload)
      else none := by
  rw [buildSrcMap_lookup]
  have hce : c.isEmpty = false := by
    cases hE : c.isEmpty with
    | false => rfl
    | true => exact absurd ((String.isEmpty_iff c).mp hE) hne
  have ht : strTruthy (some c) = true := by
    simp [strTruthy, hce]
  have hkeys : resourceKeys r = cidKeys c := by
    unfold resourceKeys
    rw [hc, hloc]
    have h2 : strTruthy (none : Option String) = false := rfl
    simp [ht, h2]
  have hlast : lastOwner k [r] = if k ∈ cidKeys c then some r else none := by
    simp [lastOwner, hkeys]
  rw [hlast]
  have hmem : (k ∈ cidKeys c) ↔
      (k = "cid:" ++ stripAngle c ∨ k = "CID:" ++ stripAngle c ∨
        k = stripAngle c ∨ k = norm (stripAngle c)) := by
    simp [cidKeys]
  by_cases hk : k ∈ cidKeys c
  · rw [if_pos hk, if_pos (hmem.mp hk)]
    rfl
  · rw [if_neg hk, if_neg (fun hd => hk (hmem.mpr hd))]
    rfl

/-- C4 witness at a concrete resource and key. -/
theorem C4_cid_key_variants_witness :
    dictLookup (buildSrcMap [pngPart]) "cid:img001@ABC"
      = some (dataUri pngPart.contentType pngPart.payload) := by
  have h := C4_cid_key_variants pngPart "<img001@ABC>" rfl (by decide) rfl
    "cid:img001@ABC"
  rw [h, if_pos (Or.inl (by decide))]

/-- C5: on a key collision, the resource later in part order wins
(last-write overwrite), and map building is total (no error). -/
theorem C5_last_write_wins (xs ys : List MimePart) (r1 r2 : MimePart) (k : String)
    (_h1 : r1 ∈ xs) (_hk1 : k ∈ resourceKeys r1) (_hne : r1 ≠ r2)
    (hk2 : k ∈ resourceKeys r2) (hys : ∀ r' ∈ ys, k ∉ resourceKeys r') :
    dictLookup (buildSrcMap (xs ++ r2 :: ys)) k
      = some (dataUri r2.contentType r2.payload) := by
  rw [buildSrcMap_lookup, lastOwner_last xs ys r2 hk2 hys]
  rfl

/-- C5 witness: with two colliding resources, the later one's data URI is
bound. -/
theorem C5_last_write_wins_witness :
    dictLookup (buildSrcMap [pngPart, gifPart]) "cid:img001@ABC"
      = some (dataUri gifPart.contentType gifPart.payload) :=
  C5_last_write_wins [pngPart] [] pngPart gifPart "cid:img001@ABC"
    (by decide) (by decide) (by decide) (by decide) (by decide)

/-- C6: the extractor returns the trimmed `<title>` string when the title
element exists with non-empty text (BeautifulSoup `.string` semantics),
else the fallback; the body is the serialized `<body>` subtree when one
exists, else the whole serialized document. -/
theorem C6_extractor (parse : String → HtmlList) (text fb : String) :
    (∀ t s, findFirstList "title" (parse text) = some t → tagString t = some s →
        s ≠ "" → (html_to_body parse text fb).1 = pyStrip s) ∧
    ((findFirstList "title" (parse text)).bind tagString = none →
        (html_to_body parse text fb).1 = fb) ∧
    ((findFirstList "title" (parse text)).bind tagString = some "" →
        (html_to_body parse text fb).1 = fb) ∧
    (∀ b, findFirstList "body" (parse text) = some b →
        (html_to_body parse text fb).2 = serializeNode b) ∧
    (findFirstList "body" (parse text) = none →
        (html_to_body parse text fb).2 = serializeList (parse text)) := by
  refine ⟨?_, ?_, ?_, ?_, ?_⟩
  · intro t s ht hs hne
    unfold html_to_body
    simp only [ht, Option.some_bind, hs]
    rw [if_pos hne]
  · intro hnone
    unfold html_to_body
    simp only [hnone]
  · intro hemp
    unfold html_to_body
    simp only [hemp]
    rw [if_neg (fun hne => hne rfl)]
  · intro b hb
    unfold html_to_body
    simp only [hb]
  · intro hnone
    unfold html_to_body
    simp only [hnone]

/-- C6 witness: title is trimmed, body is the serialized body subtree. -/
theorem C6_extractor_witness :
    (html_to_body (fun _ => titleDoc) "x" "fb").1 = pyStrip "  Hi  " ∧
      (html_to_body (fun _ => titleDoc) "x" "fb").2
        = serializeNode (Html.elem "body" [] (.cons (.text "ok") .nil)) := by
  have h := C6_extractor (fun _ => titleDoc) "x" "fb"
  exact ⟨h.1 (Html.elem "title" [] (.cons (.text "  Hi  ") .nil)) "  Hi  "
      rfl rfl (by decide),
    h.2.2.2.1 (Html.elem "body" [] (.cons (.text "ok") .nil)) rfl⟩

/-- C7: a resource with `Content-Location: images/pic.JPG` resolves an
`<img src="pic.JPG">` (no path prefix) to its data URI through the
basename keys, when it is the only part registering key `pic.JPG`. -/
theorem C7_basename_fallback (l : List MimePart) (r : MimePart)
    (hr : r ∈ l) (hloc : r.contentLocation = some "images/pic.JPG")
    (huniq : ∀ r' ∈ l, "pic.JPG" ∈ resourceKeys r' → r' = r) :
    rehydrateNode (buildSrcMap l)
        (Html.elem "img" [("src", "pic.JPG")] HtmlList.nil)
      = Html.elem "img" [("src", dataUri r.contentType r.payload)]
          HtmlList.nil := by
  have hk : "pic.JPG" ∈ resourceKeys r := by
    unfold resourceKeys
    rw [hloc]
    apply List.mem_append_right
    decide
  have hlook : dictLookup (buildSrcMap l) "pic.JPG"
      = some (dataUri r.contentType r.payload) := by
    rw [buildSrcMap_lookup, lastOwner_unique hr hk huniq]
    rfl
  have hres : resolveSrc (buildSrcMap l) "pic.JPG"
      = dataUri r.contentType r.payload := by
    unfold resolveSrc
    rw [show norm "pic.JPG" = "pic.JPG" from by decide]
    simp only [hlook]
  have hstep : rehydrateNode (buildSrcMap l)
        (Html.elem "img" [("src", "pic.JPG")] HtmlList.nil)
      = Html.elem "img" [("src", resolveSrc (buildSrcMap l) "pic.JPG")]
          HtmlList.nil := rfl
  rw [hstep, hres]

/-- C7 witness at a concrete one-resource archive. -/
theorem C7_basename_fallback_witness :
    rehydrateNode (buildSrcMap [jpgPart])
        (Html.elem "img" [("src", "pic.JPG")] HtmlList.nil)
      = Html.elem "img" [("src", dataUri jpgPart.contentType jpgPart.payload)]
          HtmlList.nil :=
  C7_basename_fallback [jpgPart] jpgPart (by decide) rfl (by decide)

/-- C8: `strip_data_uri_images` is total (a Lean function) and idempotent:
stripping an already-stripped document changes nothing. -/
theorem C8_strip_idempotent (doc : HtmlList) :
    strip_data_uri_images (strip_data_uri_images doc)
      = strip_data_uri_images doc := by
  unfold strip_data_uri_images
  by_cases h : (stripForest doc).2 = true
  · simp only [h, if_true]
    rw [stripForest_fixed doc]
    simp
  · simp [h]

/-- C9: rehydration mutates only `src` attribute values: after blanking
every `src` value on both sides, input and output documents coincide
(same element order, same non-src attributes, same text). -/
theorem C9_rehydrate_frame (m : Dict) (doc : HtmlList) :
    eraseSrcList (rehydrate m doc) = eraseSrcList doc :=
  eraseSrc_rehydrateList m doc

/-- C10 counterexample: on filename `.mht` both pipelines succeed but
return different titles (`""` from `rsplit` vs `".mht"` from
`pathlib.stem`). -/
theorem C10_counterexample :
    (parse_mht_to_html tinyParse [tinyHtmlPart] ".mht").toOption.map Prod.fst
        = some "" ∧
      (load_mht tinyParse [tinyHtmlPart] ".mht").toOption.map Prod.fst
        = some ".mht" ∧
      ("" : String) ≠ ".mht" :=
  ⟨rfl, rfl, by decide⟩

/-- C10 (amended): whenever the two filename-stem computations agree, the
two pipelines succeed on exactly the same results. -/
theorem C10_pipelines_agree (parse : String → HtmlList) (parts : List MimePart)
    (fn : String) (hstem : rsplitStem fn = pathStem fn) (pr : String × String) :
    parse_mht_to_html parse parts fn = Except.ok pr ↔
      load_mht parse parts fn = Except.ok pr := by
  unfold parse_mht_to_html load_mht
  by_cases h : strTruthy (scanParts parts).1 = false <;> simp [h, hstem]

/-- C10 witness at a concrete archive and filename with agreeing stems. -/
theorem C10_pipelines_agree_witness :
    rsplitStem "a.mht" = pathStem "a.mht" ∧
      (parse_mht_to_html tinyParse [tinyHtmlPart] "a.mht"
          = Except.ok ("a", "<body>&lt;body&gt;h&lt;/body&gt;</body>") ↔
        load_mht tinyParse [tinyHtmlPart] "a.mht"
          = Except.ok ("a", "<body>&lt;body&gt;h&lt;/body&gt;</body>")) :=
  ⟨by decide, C10_pipelines_agree tinyParse [tinyHtmlPart] "a.mht" (by decide) _⟩

end Notes
